import Mathlib

/-!
Shallow embedding of the Entropy-Aware Kanban server core
(src/server/models/Task.js and the express server in src/client/src/App.js,
lines 345-516) together with the client snapshot-reconciliation handler
(App.js lines 43-52), and proofs of the spec's claims about them.

Modelling conventions:
* JavaScript millisecond timestamps (`Date.now()`, `new Date()`) are `Int`.
  Where the source reads the clock several times inside one handler
  (e.g. the `Task` constructor calls `new Date()` and `Date.now()` in the
  same tick), a single `now : Int` parameter stands for the clock value.
* JavaScript numbers that carry fractions (`volatility_factor`, the priority
  score) are `ℚ`; `Infinity` is the `Score.infinity` constructor.
* The draws of `Math.random()` are oracle parameters: `r : ℚ` with
  `0 ≤ r < 1` for the volatility draw, a natural `pick` reduced modulo the
  candidate count for `Math.floor(Math.random() * list.length)`, and an
  explicit `op : String → String` for the corruption operator drawn from
  the fixed list of five.
* The task id `Date.now().toString() + Math.random()` is an oracle
  parameter `idStr : String`.
* The in-memory array `tasks` is a `List Task`; JavaScript's in-place
  object mutation becomes replacement at the mutated position.
-/

namespace Kanban

/-- Status strings used by the server: `Todo`, `Doing`, `Done`.
The store keeps `status` as a plain string (a PATCH body may put any
string there), so the embedding uses `String`. -/
structure Task where
  id : String
  title : String
  description : String
  status : String
  created_at : Int
  updated_at : Int
  volatility_factor : ℚ
  deadline : Int
  version : Nat
  corrupted : Bool
deriving DecidableEq, Repr

/-- Embeds the `Task` constructor (src/server/models/Task.js lines 1-13):
`status = Todo`, `created_at = updated_at = now`,
`volatility_factor = Math.random() * 0.9 + 0.1` with the draw `r` passed
as an oracle, `deadline = now + 7 days`, `version = 0`.  The constructor
sets no `corrupted` property; the client reads it as falsy, so it is
`false` here. -/
def mkTask (title description : String) (now : Int) (idStr : String) (r : ℚ) : Task :=
  { id := idStr
    title := title
    description := description
    status := "Todo"
    created_at := now
    updated_at := now
    volatility_factor := r * (9/10) + 1/10
    deadline := now + 7 * 24 * 60 * 60 * 1000
    version := 0
    corrupted := false }

/-- Result of the priority-score computation: a finite rational or the
overdue sentinel `Infinity`. -/
inductive Score where
  | infinity
  | finite (q : ℚ)
deriving DecidableEq, Repr

/-- Order on scores: `infinity` is the top element.  (The server sorts by
score descending; `Infinity` sorts first.) -/
def Score.le : Score → Score → Prop
  | _, .infinity => True
  | .infinity, .finite _ => False
  | .finite a, .finite b => a ≤ b

instance (a b : Score) : Decidable (Score.le a b) :=
  match a, b with
  | .infinity, .infinity => isTrue trivial
  | .finite _, .infinity => isTrue trivial
  | .infinity, .finite _ => isFalse (fun h => h)
  | .finite x, .finite y => inferInstanceAs (Decidable (x ≤ y))

/-- Embeds `calculatePriorityScore` (App.js lines 367-375):
`timeSinceUpdate = now - updated_at`, `timeUntilDeadline = deadline - now`;
if `timeUntilDeadline <= 0` return `Infinity`, else
`(timeSinceUpdate * volatility_factor) / timeUntilDeadline`. -/
def calculatePriorityScore (t : Task) (now : Int) : Score :=
  let timeSinceUpdate : Int := now - t.updated_at
  let timeUntilDeadline : Int := t.deadline - now
  if timeUntilDeadline ≤ 0 then .infinity
  else .finite ((timeSinceUpdate : ℚ) * t.volatility_factor / (timeUntilDeadline : ℚ))

/-- A PATCH request body (`req.body` of the PATCH /tasks/:id handler).  Each
field is `some v` when the JSON body carries that key and `none` when it is
absent.  `Object.assign(task, req.body)` copies every present key, so the
body may carry any of the task's fields, including the ones the spec calls
immutable. -/
structure PatchBody where
  id : Option String := none
  title : Option String := none
  description : Option String := none
  status : Option String := none
  created_at : Option Int := none
  updated_at : Option Int := none
  volatility_factor : Option ℚ := none
  deadline : Option Int := none
  version : Option Nat := none
  corrupted : Option Bool := none
deriving DecidableEq, Repr

/-- Embeds `Object.assign(task, req.body)` (App.js line 444): every key
present in the body overwrites the task's field; absent keys leave the
field alone. -/
def objectAssign (t : Task) (b : PatchBody) : Task :=
  { id := b.id.getD t.id
    title := b.title.getD t.title
    description := b.description.getD t.description
    status := b.status.getD t.status
    created_at := b.created_at.getD t.created_at
    updated_at := b.updated_at.getD t.updated_at
    volatility_factor := b.volatility_factor.getD t.volatility_factor
    deadline := b.deadline.getD t.deadline
    version := b.version.getD t.version
    corrupted := b.corrupted.getD t.corrupted }

/-- Embeds the success branch of the PATCH handler (App.js lines 443-446):
merge the body with `Object.assign`, then `updated_at = new Date()` and
`version += 1`. -/
def applyPatch (t : Task) (b : PatchBody) (now : Int) : Task :=
  let m := objectAssign t b
  { m with updated_at := now, version := m.version + 1 }

/-- Outcome of the PATCH /tasks/:id handler: 404, 409 carrying
current_version and current_task, or 200 with the updated task. -/
inductive PatchOutcome where
  | notFound
  | conflict (current_version : Nat) (current_task : Task)
  | ok (t : Task)
deriving DecidableEq, Repr

/-- Replace the first element whose `id` equals `i` (the slot of the object
that `tasks.find(...)` returned and that JavaScript mutates in place). -/
def replaceFirst : List Task → String → Task → List Task
  | [], _, _ => []
  | t :: ts, i, t' => if t.id = i then t' :: ts else t :: replaceFirst ts i t'

/-- Embeds the PATCH /tasks/:id handler (App.js lines 425-452):
find the task by id (404 if absent); if `req.body.version` is present and
differs from the stored version answer 409 with the current version and the
task exactly as stored, touching nothing; otherwise merge the body, stamp
`updated_at = now`, increment `version`, store and return the new task. -/
def patchTasks (tasks : List Task) (pid : String) (body : PatchBody) (now : Int) :
    PatchOutcome × List Task :=
  match tasks.find? (fun t => t.id == pid) with
  | none => (.notFound, tasks)
  | some t =>
    match body.version with
    | some v =>
      if v ≠ t.version then (.conflict t.version t, tasks)
      else (.ok (applyPatch t body now), replaceFirst tasks pid (applyPatch t body now))
    | none => (.ok (applyPatch t body now), replaceFirst tasks pid (applyPatch t body now))

/-- Outcome of the POST /tasks handler: 400 with an error body, or 201 with
the created task.  The created task is the stored `Task` record; the
response carries no priority score (scores are computed only when a
snapshot is broadcast, never stored). -/
inductive PostOutcome where
  | badRequest
  | created (t : Task)
deriving DecidableEq, Repr

/-- Embeds the POST /tasks handler (App.js lines 411-423): reject with 400
when `!title` (the title key is absent or the empty string — JavaScript
truthiness performs no trimming); otherwise construct the task with the
description defaulted to the empty string when absent or empty, push it,
and answer 201 with it. -/
def postTasks (tasks : List Task) (title description : Option String) (now : Int)
    (idStr : String) (r : ℚ) : PostOutcome × List Task :=
  match title with
  | none => (.badRequest, tasks)
  | some s =>
    if s = "" then (.badRequest, tasks)
    else
      (.created (mkTask s (description.getD "") now idStr r),
       tasks ++ [mkTask s (description.getD "") now idStr r])

/-- Embeds the stale filter of `corruptStaleTasks` (App.js lines 475-478):
status is Doing and `now - updated_at > STALE_THRESHOLD` with
`STALE_THRESHOLD = 30 * 1000`. -/
def isStale (t : Task) (now : Int) : Bool :=
  t.status == "Doing" && decide ((30 * 1000 : Int) < now - t.updated_at)

/-- Positions in the store whose task passes the stale filter.  JavaScript's
`tasks.filter(...)` keeps references into the array, so selecting from the
filtered list is selecting a position of the original store. -/
def staleIndices (tasks : List Task) (now : Int) : List Nat :=
  (List.range tasks.length).filter (fun i => ((tasks[i]?).map (isStale · now)).getD false)

/-- Embeds `staleTasks[Math.floor(Math.random() * staleTasks.length)]`
(App.js line 482) as the store position of the selected task; the random
draw is the oracle `pick`, reduced modulo the candidate count.  `none` when
the stale subset is empty (the tick is a no-op, App.js line 480). -/
def selectStale (tasks : List Task) (now : Int) (pick : Nat) : Option Nat :=
  let l := staleIndices tasks now
  l[pick % l.length]?

/-- Embeds one tick of the corruption engine `corruptStaleTasks`
(App.js lines 467-501): select a stale Doing task at random; if its
description is non-empty, replace the description by the drawn corruption
operator's output and set `corrupted = true`; nothing else changes — in
particular neither `updated_at` nor `version` moves.  The operator drawn
from the fixed list of five is the oracle `op`. -/
def corruptTick (tasks : List Task) (now : Int) (pick : Nat) (op : String → String) :
    List Task :=
  match selectStale tasks now pick with
  | none => tasks
  | some j =>
    match tasks[j]? with
    | none => tasks
    | some t =>
      if t.description ≠ "" then
        tasks.set j { t with description := op t.description, corrupted := true }
      else tasks

/-- Embeds the client's `tasks_updated` handler (App.js lines 43-52): the new
local list is the server snapshot mapped so that a task whose id has a
pending shadow shows the shadow value, and every other task is the server
value verbatim.  The `pendingUpdates` map is the function `pending`. -/
def reconcileSnapshot (serverTasks : List Task) (pending : String → Option Task) :
    List Task :=
  serverTasks.map (fun st =>
    match pending st.id with
    | some shadow => shadow
    | none => st)

/-- Embeds the fifth corruption operator (App.js line 489): reverse the
sequence of space-delimited words of the description.  It is the one
operator of the five that draws no further randomness, so the witnesses
below use it as the concrete draw for the operator oracle. -/
def wordReverse (s : String) : String :=
  String.intercalate " " ((s.splitOn " ").reverse)

/-- A freshly created task (creation time 0, id draw `"a"`, volatility draw
0), used as the concrete input of the witnesses below. -/
def sampleTask : Task := mkTask "A" "hello world" 0 "a" 0

/-- The PATCH body the client sends when moving a task: the new status plus
the expected version (App.js lines 103-106), matching `sampleTask`. -/
def statusPatch : PatchBody := { status := some "Doing", version := some 0 }

/-- A PATCH body carrying an expected version that does not match
`sampleTask`'s stored version 0. -/
def stalePatch : PatchBody := { status := some "Done", version := some 5 }

/-- A PATCH body that carries no version at all but does carry a `deadline`
key, exercising the unconditional `Object.assign` merge. -/
def deadlinePatch : PatchBody := { deadline := some 1 }

/-- A task in the Doing column that has not been touched since time 0: at
`now = 40000` it is past the 30-second stale threshold. -/
def staleDoingTask : Task := { mkTask "B" "prepare slides" 0 "b" (1/2) with status := "Doing" }

/-- A task whose `updated_at` lies past its `deadline`.  The store can reach
this state: patching an overdue task stamps `updated_at = now` with `now`
already past the deadline (the PATCH handler never looks at the deadline). -/
def lateTask : Task :=
  { id := "late"
    title := "L"
    description := ""
    status := "Doing"
    created_at := 0
    updated_at := 100
    volatility_factor := 1/2
    deadline := 50
    version := 1
    corrupted := false }

/-- An optimistic local value for `sampleTask` (status already moved),
standing for an entry of the client's pending-shadow map. -/
def shadowTask : Task := { sampleTask with status := "Doing", updated_at := 3 }

/-- A concrete pending-shadow map holding exactly one shadow, for id `"a"`. -/
def samplePending : String → Option Task :=
  fun i => if i = "a" then some shadowTask else none

/-! ### Helper lemmas -/

lemma replaceFirst_length (l : List Task) (pid : String) (t' : Task) :
    (replaceFirst l pid t').length = l.length := by
  induction l with
  | nil => rfl
  | cons hd tl ih => by_cases hh : hd.id = pid <;> simp [replaceFirst, hh, ih]

lemma replaceFirst_getElem? (l : List Task) (pid : String) (t' : Task) (i : Nat) :
    (replaceFirst l pid t')[i]? = l[i]? ∨
    ((replaceFirst l pid t')[i]? = some t' ∧ ∃ t, l[i]? = some t ∧
      l.find? (fun u => u.id == pid) = some t) := by
  induction l generalizing i with
  | nil => left; rfl
  | cons hd tl ih =>
    by_cases hh : hd.id = pid
    · cases i with
      | zero => right; exact ⟨by simp [replaceFirst, hh], hd, by simp, by simp [hh]⟩
      | succ n => left; simp [replaceFirst, hh]
    · cases i with
      | zero => left; simp [replaceFirst, hh]
      | succ n =>
        rcases ih n with h | ⟨h1, t, h2, h3⟩
        · left; simpa [replaceFirst, hh] using h
        · right
          exact ⟨by simpa [replaceFirst, hh] using h1, t, by simpa using h2,
            by simp [hh, h3]⟩

lemma mem_replaceFirst (l : List Task) (pid : String) (t' t : Task)
    (h : l.find? (fun u => u.id == pid) = some t) : t' ∈ replaceFirst l pid t' := by
  induction l with
  | nil => simp at h
  | cons hd tl ih =>
    by_cases hh : hd.id = pid
    · simp [replaceFirst, hh]
    · have h' : tl.find? (fun u => u.id == pid) = some t := by simpa [hh] using h
      simp [replaceFirst, hh, ih h']

lemma selectStale_spec (tasks : List Task) (now : Int) (pick : Nat) (j : Nat)
    (h : selectStale tasks now pick = some j) :
    ∃ t, tasks[j]? = some t ∧ isStale t now = true := by
  unfold selectStale at h
  have hj : j ∈ staleIndices tasks now := List.getElem?_mem h
  unfold staleIndices at hj
  rcases List.mem_filter.1 hj with ⟨-, hp⟩
  cases hjt : tasks[j]? with
  | none => rw [hjt] at hp; simp at hp
  | some t => exact ⟨t, rfl, by rw [hjt] at hp; simpa using hp⟩

/-! ### Claims about the priority score -/

/-- C3: for every task and every time `now`, `calculatePriorityScore`
returns the Infinity sentinel whenever `now ≥ task.deadline` (for any
`updated_at` and `volatility_factor`), and otherwise returns exactly
`(now - updated_at) * volatility_factor / (deadline - now)`. -/
theorem score_overdue_sentinel_and_formula (t : Task) (now : Int) :
    (t.deadline ≤ now → calculatePriorityScore t now = Score.infinity) ∧
    (now < t.deadline → calculatePriorityScore t now =
      Score.finite (((now - t.updated_at : Int) : ℚ) * t.volatility_factor /
        ((t.deadline - now : Int) : ℚ))) := by
  constructor
  · intro h
    simp only [calculatePriorityScore]
    rw [if_pos (by omega)]
  · intro h
    simp only [calculatePriorityScore]
    rw [if_neg (by omega)]

/-- Witness for C3 at a concrete task, at its deadline and before it. -/
theorem score_overdue_sentinel_and_formula_witness :
    calculatePriorityScore sampleTask 604800000 = Score.infinity ∧
    calculatePriorityScore sampleTask 0 = Score.finite 0 := by
  constructor
  · exact (score_overdue_sentinel_and_formula sampleTask 604800000).1 (by decide)
  · have h := (score_overdue_sentinel_and_formula sampleTask 0).2 (by decide)
    rw [h]; norm_num [sampleTask, mkTask]

/-- C7 (amended): holding `updated_at` and `volatility_factor` fixed, the
score is non-decreasing in `now` on times strictly before the deadline,
provided `volatility_factor` is non-negative and `updated_at` does not lie
past the deadline.  (Without the last hypothesis the claim fails, see the
counterexample.) -/
theorem score_monotonic_before_deadline (t : Task) (n1 n2 : Int)
    (hv : 0 ≤ t.volatility_factor) (hud : t.updated_at ≤ t.deadline)
    (h12 : n1 ≤ n2) (h2 : n2 < t.deadline) :
    Score.le (calculatePriorityScore t n1) (calculatePriorityScore t n2) := by
  have h1 : n1 < t.deadline := lt_of_le_of_lt h12 h2
  simp only [calculatePriorityScore]
  rw [if_neg (by omega), if_neg (by omega)]
  simp only [Score.le]
  have d1 : (0:ℚ) < ((t.deadline - n1 : Int) : ℚ) := by
    exact_mod_cast (by omega : (0:Int) < t.deadline - n1)
  have d2 : (0:ℚ) < ((t.deadline - n2 : Int) : ℚ) := by
    exact_mod_cast (by omega : (0:Int) < t.deadline - n2)
  rw [div_le_div_iff₀ d1 d2]
  have hud' : ((t.updated_at : Int) : ℚ) ≤ ((t.deadline : Int) : ℚ) := by exact_mod_cast hud
  have h12' : ((n1 : Int) : ℚ) ≤ ((n2 : Int) : ℚ) := by exact_mod_cast h12
  push_cast
  nlinarith [mul_nonneg (mul_nonneg hv (sub_nonneg.2 hud')) (sub_nonneg.2 h12')]

/-- Witness for C7 at a concrete task and a concrete pair of times. -/
theorem score_monotonic_before_deadline_witness :
    (0:ℚ) ≤ sampleTask.volatility_factor ∧
    sampleTask.updated_at ≤ sampleTask.deadline ∧
    (100:Int) ≤ 200 ∧ (200:Int) < sampleTask.deadline ∧
    Score.le (calculatePriorityScore sampleTask 100) (calculatePriorityScore sampleTask 200) :=
  ⟨by norm_num [sampleTask, mkTask], by decide, by decide, by decide,
    score_monotonic_before_deadline sampleTask 100 200 (by norm_num [sampleTask, mkTask])
      (by decide) (by decide) (by decide)⟩

/-- C7 counterexample: for a task whose `updated_at` (100) lies past its
`deadline` (50) — a state reachable by patching an overdue task — the score
strictly decreases between times 0 and 40, both strictly before the
deadline, refuting the claim as stated for every task. -/
theorem score_not_monotonic_when_updated_after_deadline :
    (0:Int) ≤ 40 ∧ (40:Int) < lateTask.deadline ∧
    calculatePriorityScore lateTask 0 = Score.finite (-1) ∧
    calculatePriorityScore lateTask 40 = Score.finite (-3) ∧
    ¬ Score.le (calculatePriorityScore lateTask 0) (calculatePriorityScore lateTask 40) := by
  have h0 : calculatePriorityScore lateTask 0 = Score.finite (-1) := by
    simp only [calculatePriorityScore, lateTask]
    norm_num
  have h40 : calculatePriorityScore lateTask 40 = Score.finite (-3) := by
    simp only [calculatePriorityScore, lateTask]
    norm_num
  refine ⟨by decide, by decide, h0, h40, ?_⟩
  rw [h0, h40]
  simp only [Score.le]
  norm_num

/-! ### Claims about task creation -/

/-- C6 (amended): a created task starts with `version = 0`, `status = Todo`
and `deadline` exactly 7 days after creation, and for every random draw
`0 ≤ r < 1` its volatility factor lies in the half-open interval
`[0.1, 1.0)` — at least 0.1 (the lower endpoint is attained at `r = 0`)
and strictly below 1. -/
theorem new_task_initial_state (title description : String) (now : Int) (idStr : String)
    (r : ℚ) (h0 : 0 ≤ r) (h1 : r < 1) :
    (mkTask title description now idStr r).version = 0 ∧
    (mkTask title description now idStr r).status = "Todo" ∧
    (mkTask title description now idStr r).deadline = now + 7 * 24 * 60 * 60 * 1000 ∧
    1/10 ≤ (mkTask title description now idStr r).volatility_factor ∧
    (mkTask title description now idStr r).volatility_factor < 1 := by
  refine ⟨rfl, rfl, rfl, ?_, ?_⟩ <;> simp only [mkTask] <;> nlinarith

/-- Witness for C6 at a concrete creation. -/
theorem new_task_initial_state_witness :
    (mkTask "A" "h" 1 "a" 0).version = 0 ∧
    (mkTask "A" "h" 1 "a" 0).status = "Todo" ∧
    (mkTask "A" "h" 1 "a" 0).deadline = 1 + 7 * 24 * 60 * 60 * 1000 ∧
    1/10 ≤ (mkTask "A" "h" 1 "a" 0).volatility_factor ∧
    (mkTask "A" "h" 1 "a" 0).volatility_factor < 1 :=
  new_task_initial_state "A" "h" 1 "a" 0 (by norm_num) (by norm_num)

/-- C6 counterexample: `Math.random()` may return 0 (its range is `[0,1)`),
and at draw 0 the volatility factor equals exactly 0.1, so it is not
strictly greater than 0.1 as the claim's interval `(0.1, 1.0]` demands
(and no draw ever reaches 1.0). -/
theorem volatility_can_equal_lower_bound :
    (0:ℚ) ≤ 0 ∧ (0:ℚ) < 1 ∧
    (mkTask "A" "h" 0 "a" 0).volatility_factor = 1/10 ∧
    ¬ (1/10 < (mkTask "A" "h" 0 "a" 0).volatility_factor) := by
  refine ⟨le_refl _, by norm_num, ?_, ?_⟩ <;> simp only [mkTask] <;> norm_num

/-! ### Claims about the PATCH handler -/

/-- C1: every accepted PATCH (the id exists and, when the body supplies a
version, it equals the stored version) answers 200 with a task whose
version is the prior version plus exactly 1 and whose `updated_at` is the
current time, and that task is what is stored; every rejected PATCH leaves
the store — in particular every version — unchanged. -/
theorem patch_version_monotonic (tasks : List Task) (pid : String) (body : PatchBody)
    (now : Int) :
    (∀ t', (patchTasks tasks pid body now).1 = PatchOutcome.ok t' →
      ∃ t, tasks.find? (fun u => u.id == pid) = some t ∧
        t'.version = t.version + 1 ∧ t'.updated_at = now ∧
        t' ∈ (patchTasks tasks pid body now).2) ∧
    (∀ t, tasks.find? (fun u => u.id == pid) = some t →
      (body.version = none ∨ body.version = some t.version) →
      ∃ t', (patchTasks tasks pid body now).1 = PatchOutcome.ok t' ∧
        t'.version = t.version + 1 ∧ t'.updated_at = now) ∧
    ((∀ t', (patchTasks tasks pid body now).1 ≠ PatchOutcome.ok t') →
      (patchTasks tasks pid body now).2 = tasks) := by
  rcases hf : tasks.find? (fun u => u.id == pid) with _ | t
  · refine ⟨?_, ?_, ?_⟩
    · intro t' h
      simp [patchTasks, hf] at h
    · intro t h
      rw [hf] at h
      exact absurd h (by simp)
    · intro _
      simp [patchTasks, hf]
  · have hver : ∀ h : (body.version = none ∨ body.version = some t.version),
        patchTasks tasks pid body now =
          (PatchOutcome.ok (applyPatch t body now),
           replaceFirst tasks pid (applyPatch t body now)) := by
      rintro (hv | hv) <;> simp [patchTasks, hf, hv]
    have hvinc : ∀ h : (body.version = none ∨ body.version = some t.version),
        (applyPatch t body now).version = t.version + 1 := by
      rintro (hv | hv) <;> simp [applyPatch, objectAssign, hv]
    refine ⟨?_, ?_, ?_⟩
    · intro t' h
      rcases hv : body.version with _ | v
      · rw [hver (Or.inl hv)] at h ⊢
        cases h
        exact ⟨t, hf, hvinc (Or.inl hv), rfl, mem_replaceFirst tasks pid _ t hf⟩
      · by_cases hvv : v = t.version
        · subst hvv
          rw [hver (Or.inr hv)] at h ⊢
          cases h
          exact ⟨t, hf, hvinc (Or.inr hv), rfl, mem_replaceFirst tasks pid _ t hf⟩
        · simp [patchTasks, hf, hv, hvv] at h
    · intro u hu hver'
      have hut : u = t := by rw [hf] at hu; exact (Option.some_inj.mp hu).symm
      subst hut
      exact ⟨applyPatch u body now, by rw [hver hver'], hvinc hver', rfl⟩
    · intro h
      rcases hv : body.version with _ | v
      · exact absurd (by rw [hver (Or.inl hv)]) (h (applyPatch t body now))
      · by_cases hvv : v = t.version
        · subst hvv
          exact absurd (by rw [hver (Or.inr hv)]) (h (applyPatch t body now))
        · simp [patchTasks, hf, hv, hvv]

/-- Witness for C1: the client's status-move PATCH against a fresh task is
accepted, its result carries version 1 and the new timestamp, and it is the
stored record. -/
theorem patch_version_monotonic_witness :
    (applyPatch sampleTask statusPatch 5).version = sampleTask.version + 1 ∧
    (applyPatch sampleTask statusPatch 5).updated_at = 5 ∧
    applyPatch sampleTask statusPatch 5 ∈ (patchTasks [sampleTask] "a" statusPatch 5).2 := by
  obtain ⟨t, hfind, hv, hu, hm⟩ :=
    (patch_version_monotonic [sampleTask] "a" statusPatch 5).1
      (applyPatch sampleTask statusPatch 5) rfl
  have h0 : [sampleTask].find? (fun u => u.id == "a") = some sampleTask := rfl
  rw [h0] at hfind
  have ht : t = sampleTask := (Option.some_inj.mp hfind).symm
  subst ht
  exact ⟨hv, hu, hm⟩

/-- C2: against an existing task, a PATCH answers 409 exactly when the body
supplies a version different from the stored one; the 409 payload carries
the stored version and the stored task verbatim and the store does not
change; and a body without a version bypasses the guard — the patch is
applied unconditionally. -/
theorem patch_conflict_iff_version_mismatch (tasks : List Task) (pid : String)
    (body : PatchBody) (now : Int) (t : Task)
    (hf : tasks.find? (fun u => u.id == pid) = some t) :
    ((∃ cv ct, (patchTasks tasks pid body now).1 = PatchOutcome.conflict cv ct) ↔
      (∃ v, body.version = some v ∧ v ≠ t.version)) ∧
    (∀ cv ct, (patchTasks tasks pid body now).1 = PatchOutcome.conflict cv ct →
      cv = t.version ∧ ct = t ∧ (patchTasks tasks pid body now).2 = tasks) ∧
    (body.version = none →
      patchTasks tasks pid body now =
        (PatchOutcome.ok (applyPatch t body now),
         replaceFirst tasks pid (applyPatch t body now))) := by
  rcases hv : body.version with _ | v
  · refine ⟨?_, ?_, fun _ => by simp [patchTasks, hf, hv]⟩
    · constructor
      · rintro ⟨cv, ct, hc⟩
        simp [patchTasks, hf, hv] at hc
      · rintro ⟨v, hv', -⟩
        exact absurd hv' (by simp)
    · intro cv ct hc
      simp [patchTasks, hf, hv] at hc
  · by_cases hvv : v = t.version
    · subst hvv
      refine ⟨?_, ?_, ?_⟩
      · constructor
        · rintro ⟨cv, ct, hc⟩
          simp [patchTasks, hf, hv] at hc
        · rintro ⟨w, hw, hne⟩
          exact absurd (Option.some_inj.mp hw).symm hne
      · intro cv ct hc
        simp [patchTasks, hf, hv] at hc
      · intro h
        exact absurd h (by simp)
    · refine ⟨?_, ?_, ?_⟩
      · exact ⟨fun _ => ⟨v, rfl, hvv⟩,
          fun _ => ⟨t.version, t, by simp [patchTasks, hf, hv, hvv]⟩⟩
      · intro cv ct hc
        simp only [patchTasks, hf, hv] at hc ⊢
        rw [if_pos hvv] at hc ⊢
        cases hc
        exact ⟨rfl, rfl, rfl⟩
      · intro h
        exact absurd h (by simp)

/-- Witness for C2: a PATCH carrying the stale expected version 5 against
the fresh task (stored version 0) is answered with 409 carrying the stored
version and the stored task, and the store is untouched. -/
theorem patch_conflict_iff_version_mismatch_witness :
    (patchTasks [sampleTask] "a" stalePatch 5).1 =
      PatchOutcome.conflict sampleTask.version sampleTask ∧
    (patchTasks [sampleTask] "a" stalePatch 5).2 = [sampleTask] := by
  have h := patch_conflict_iff_version_mismatch [sampleTask] "a" stalePatch 5 sampleTask rfl
  obtain ⟨cv, ct, hc⟩ := h.1.mpr ⟨5, rfl, by decide⟩
  obtain ⟨h1, h2, h3⟩ := h.2.1 cv ct hc
  rw [h1, h2] at hc
  exact ⟨hc, h3⟩

/-- C4 counterexample: the PATCH handler merges the whole body with
`Object.assign`, so a PATCH body that itself carries a `deadline` key — and
no version, so the guard is bypassed — is accepted and overwrites the
deadline fixed at creation.  The same holds for `id`, `created_at` and
`volatility_factor`. -/
theorem patch_can_overwrite_creation_fields :
    (patchTasks [sampleTask] "a" deadlinePatch 5).1 =
      PatchOutcome.ok (applyPatch sampleTask deadlinePatch 5) ∧
    (applyPatch sampleTask deadlinePatch 5).deadline = 1 ∧
    sampleTask.deadline = 604800000 := by
  refine ⟨rfl, rfl, rfl⟩

/-- C4 (amended): after creation, `id`, `created_at`, `deadline` and
`volatility_factor` are unchanged by every corruption tick and by every
PATCH (accepted or rejected) whose body does not itself carry one of those
keys; a body that does carry one overwrites it through the
`Object.assign` merge. -/
theorem creation_fields_immutable_unless_patched :
    (∀ (tasks : List Task) (pid : String) (body : PatchBody) (now : Int),
      body.id = none → body.created_at = none → body.deadline = none →
      body.volatility_factor = none →
      ∀ (i : Nat) (t t' : Task), tasks[i]? = some t →
        ((patchTasks tasks pid body now).2)[i]? = some t' →
        t'.id = t.id ∧ t'.created_at = t.created_at ∧ t'.deadline = t.deadline ∧
        t'.volatility_factor = t.volatility_factor) ∧
    (∀ (tasks : List Task) (now : Int) (pick : Nat) (op : String → String)
      (i : Nat) (t t' : Task), tasks[i]? = some t →
        (corruptTick tasks now pick op)[i]? = some t' →
        t'.id = t.id ∧ t'.created_at = t.created_at ∧ t'.deadline = t.deadline ∧
        t'.volatility_factor = t.volatility_factor) := by
  constructor
  · intro tasks pid body now hid hca hdl hvf i t t' ht ht'
    rcases hf : tasks.find? (fun u => u.id == pid) with _ | tf
    · rw [show (patchTasks tasks pid body now).2 = tasks by simp [patchTasks, hf]] at ht'
      rw [ht] at ht'
      cases Option.some_inj.mp ht'
      exact ⟨rfl, rfl, rfl, rfl⟩
    · have hok : ∀ hv : (body.version = none ∨ body.version = some tf.version),
          (patchTasks tasks pid body now).2 =
            replaceFirst tasks pid (applyPatch tf body now) := by
        rintro (hv | hv) <;> simp [patchTasks, hf, hv]
      have happ : (applyPatch tf body now).id = tf.id ∧
          (applyPatch tf body now).created_at = tf.created_at ∧
          (applyPatch tf body now).deadline = tf.deadline ∧
          (applyPatch tf body now).volatility_factor = tf.volatility_factor := by
        simp [applyPatch, objectAssign, hid, hca, hdl, hvf]
      have hrep : (replaceFirst tasks pid (applyPatch tf body now))[i]? = some t' →
          t'.id = t.id ∧ t'.created_at = t.created_at ∧ t'.deadline = t.deadline ∧
          t'.volatility_factor = t.volatility_factor := by
        intro hre
        rcases replaceFirst_getElem? tasks pid (applyPatch tf body now) i with h | ⟨h1, u, hu, hufind⟩
        · rw [h, ht] at hre
          cases Option.some_inj.mp hre
          exact ⟨rfl, rfl, rfl, rfl⟩
        · rw [h1] at hre
          cases Option.some_inj.mp hre
          have hut : u = t := by
            rw [ht] at hu
            exact (Option.some_inj.mp hu).symm
          have htf : tf = t := by
            rw [hufind] at hf
            exact (Option.some_inj.mp hf).symm.trans hut
          rw [← htf]
          exact happ
      rcases hv : body.version with _ | v
      · exact hrep (by rw [← hok (Or.inl hv)]; exact ht')
      · by_cases hvv : v = tf.version
        · subst hvv
          exact hrep (by rw [← hok (Or.inr hv)]; exact ht')
        · rw [show (patchTasks tasks pid body now).2 = tasks by
            simp [patchTasks, hf, hv, hvv]] at ht'
          rw [ht] at ht'
          cases Option.some_inj.mp ht'
          exact ⟨rfl, rfl, rfl, rfl⟩
  · intro tasks now pick op i t t' ht ht'
    rcases hsel : selectStale tasks now pick with _ | j
    · rw [show corruptTick tasks now pick op = tasks by simp [corruptTick, hsel], ht] at ht'
      cases Option.some_inj.mp ht'
      exact ⟨rfl, rfl, rfl, rfl⟩
    · rcases hjt : tasks[j]? with _ | tj
      · rw [show corruptTick tasks now pick op = tasks by
          simp [corruptTick, hsel, hjt], ht] at ht'
        cases Option.some_inj.mp ht'
        exact ⟨rfl, rfl, rfl, rfl⟩
      · by_cases hd : tj.description = ""
        · rw [show corruptTick tasks now pick op = tasks by
            simp [corruptTick, hsel, hjt, hd], ht] at ht'
          cases Option.some_inj.mp ht'
          exact ⟨rfl, rfl, rfl, rfl⟩
        · have hct : corruptTick tasks now pick op =
              tasks.set j { tj with description := op tj.description, corrupted := true } := by
            simp [corruptTick, hsel, hjt, hd]
          rw [hct] at ht'
          by_cases hij : j = i
          · subst hij
            rw [List.getElem?_set_self', hjt] at ht'
            have htj : tj = t := by rw [ht] at hjt; exact (Option.some_inj.mp hjt).symm
            cases Option.some_inj.mp ht'
            subst htj
            exact ⟨rfl, rfl, rfl, rfl⟩
          · rw [List.getElem?_set_ne hij, ht] at ht'
            cases Option.some_inj.mp ht'
            exact ⟨rfl, rfl, rfl, rfl⟩

/-- Witness for C4: the status-move PATCH (no creation-field keys) and a
corruption tick both leave `id`, `created_at`, `deadline` and
`volatility_factor` of the affected task as created. -/
theorem creation_fields_immutable_unless_patched_witness :
    ((applyPatch sampleTask statusPatch 5).id = sampleTask.id ∧
      (applyPatch sampleTask statusPatch 5).created_at = sampleTask.created_at ∧
      (applyPatch sampleTask statusPatch 5).deadline = sampleTask.deadline ∧
      (applyPatch sampleTask statusPatch 5).volatility_factor = sampleTask.volatility_factor) ∧
    (corruptTick [staleDoingTask] 40000 0 wordReverse)[0]? =
      some { staleDoingTask with
               description := wordReverse staleDoingTask.description,
               corrupted := true } ∧
    ({ staleDoingTask with
         description := wordReverse staleDoingTask.description,
         corrupted := true } : Task).deadline = staleDoingTask.deadline := by
  refine ⟨creation_fields_immutable_unless_patched.1 [sampleTask] "a" statusPatch 5
      rfl rfl rfl rfl 0 sampleTask (applyPatch sampleTask statusPatch 5) rfl rfl, rfl,
    (creation_fields_immutable_unless_patched.2 [staleDoingTask] 40000 0 wordReverse 0
      staleDoingTask _ rfl rfl).2.2.1⟩

/-! ### Claims about the POST handler -/

/-- C5 (amended): a POST whose title is missing or the empty string fails
with 400 and adds nothing to the store; every other title — including
whitespace-only ones, since the `!title` truthiness check performs no
trimming — is answered 201 with the created task appended to the store (the
response is the stored `Task` record, which carries no priority score). -/
theorem post_title_validation (tasks : List Task) (title description : Option String)
    (now : Int) (idStr : String) (r : ℚ) :
    ((title = none ∨ title = some "") →
      postTasks tasks title description now idStr r = (PostOutcome.badRequest, tasks)) ∧
    (∀ s, title = some s → s ≠ "" →
      postTasks tasks title description now idStr r =
        (PostOutcome.created (mkTask s (description.getD "") now idStr r),
         tasks ++ [mkTask s (description.getD "") now idStr r])) := by
  constructor
  · rintro (h | h) <;> subst h <;> simp [postTasks]
  · intro s hs hne
    subst hs
    simp [postTasks, hne]

/-- Witness for C5: an empty title is rejected with nothing stored; the
title `"A"` is accepted, stored and returned. -/
theorem post_title_validation_witness :
    postTasks [] (some "") none 0 "a" 0 = (PostOutcome.badRequest, []) ∧
    postTasks [] (some "A") (some "hi") 0 "a" 0 =
      (PostOutcome.created (mkTask "A" "hi" 0 "a" 0), [mkTask "A" "hi" 0 "a" 0]) :=
  ⟨(post_title_validation [] (some "") none 0 "a" 0).1 (Or.inr rfl),
    (post_title_validation [] (some "A") (some "hi") 0 "a" 0).2 "A" rfl (by decide)⟩

/-- C5 counterexample: the single-space title is whitespace-only (its one
character is whitespace) yet not the empty string, so JavaScript truthiness
lets it through: the POST is answered 201 and the task is stored, where the
claim demands 400 and no insertion. -/
theorem post_accepts_whitespace_title :
    " ".toList = [' '] ∧ (' ' : Char).isWhitespace = true ∧ (" " : String) ≠ "" ∧
    postTasks [] (some " ") none 0 "a" 0 =
      (PostOutcome.created (mkTask " " "" 0 "a" 0), [mkTask " " "" 0 "a" 0]) :=
  ⟨rfl, by decide, by decide, rfl⟩

/-! ### Claims about the corruption engine -/

/-- C8: whenever a corruption tick selects a task, the selected task has
status Doing and was last updated more than the 30-second stale threshold
before `now`; a task with status Todo or Done, or one updated within the
threshold, is never selected, whatever else the store holds. -/
theorem corruption_selects_only_stale_doing (tasks : List Task) (now : Int) (pick : Nat)
    (j : Nat) (t : Task) (hsel : selectStale tasks now pick = some j)
    (ht : tasks[j]? = some t) :
    t.status = "Doing" ∧ 30 * 1000 < now - t.updated_at ∧
    t.status ≠ "Todo" ∧ t.status ≠ "Done" := by
  obtain ⟨u, hu, hstale⟩ := selectStale_spec tasks now pick j hsel
  have hut : u = t := by
    rw [ht] at hu
    exact (Option.some_inj.mp hu).symm
  subst hut
  simp only [isStale, Bool.and_eq_true, beq_iff_eq, decide_eq_true_eq] at hstale
  exact ⟨hstale.1, hstale.2, by rw [hstale.1]; decide, by rw [hstale.1]; decide⟩

/-- Witness for C8: in a store holding a fresh Todo task and a stale Doing
task, the tick selects the stale Doing one. -/
theorem corruption_selects_only_stale_doing_witness :
    selectStale [sampleTask, staleDoingTask] 40000 0 = some 1 ∧
    [sampleTask, staleDoingTask][1]? = some staleDoingTask ∧
    staleDoingTask.status = "Doing" ∧ 30 * 1000 < (40000 : Int) - staleDoingTask.updated_at :=
  ⟨rfl, rfl,
    (corruption_selects_only_stale_doing [sampleTask, staleDoingTask] 40000 0 1
      staleDoingTask rfl rfl).1,
    (corruption_selects_only_stale_doing [sampleTask, staleDoingTask] 40000 0 1
      staleDoingTask rfl rfl).2.1⟩

/-- C10: a corruption tick changes at most one task, touches only that
task's `description` and `corrupted` fields — `title`, `status`,
`updated_at`, `version`, `id`, `created_at`, `deadline` and
`volatility_factor` stay put at every position — and the mutated task still
passes the stale filter afterwards, so it stays eligible on later ticks. -/
theorem corruption_frame_effect (tasks : List Task) (now : Int) (pick : Nat)
    (op : String → String) :
    (corruptTick tasks now pick op).length = tasks.length ∧
    (∀ (i : Nat) (t t' : Task), tasks[i]? = some t →
      (corruptTick tasks now pick op)[i]? = some t' →
      t'.title = t.title ∧ t'.status = t.status ∧ t'.updated_at = t.updated_at ∧
      t'.version = t.version ∧ t'.id = t.id ∧ t'.created_at = t.created_at ∧
      t'.deadline = t.deadline ∧ t'.volatility_factor = t.volatility_factor) ∧
    (∀ i k : Nat, (corruptTick tasks now pick op)[i]? ≠ tasks[i]? →
      (corruptTick tasks now pick op)[k]? ≠ tasks[k]? → i = k) ∧
    (∀ (i : Nat) (t t' : Task), tasks[i]? = some t →
      (corruptTick tasks now pick op)[i]? = some t' → t' ≠ t →
      t'.status = "Doing" ∧ 30 * 1000 < now - t'.updated_at) := by
  have noop : corruptTick tasks now pick op = tasks →
      (corruptTick tasks now pick op).length = tasks.length ∧
      (∀ (i : Nat) (t t' : Task), tasks[i]? = some t →
        (corruptTick tasks now pick op)[i]? = some t' →
        t'.title = t.title ∧ t'.status = t.status ∧ t'.updated_at = t.updated_at ∧
        t'.version = t.version ∧ t'.id = t.id ∧ t'.created_at = t.created_at ∧
        t'.deadline = t.deadline ∧ t'.volatility_factor = t.volatility_factor) ∧
      (∀ i k : Nat, (corruptTick tasks now pick op)[i]? ≠ tasks[i]? →
        (corruptTick tasks now pick op)[k]? ≠ tasks[k]? → i = k) ∧
      (∀ (i : Nat) (t t' : Task), tasks[i]? = some t →
        (corruptTick tasks now pick op)[i]? = some t' → t' ≠ t →
        t'.status = "Doing" ∧ 30 * 1000 < now - t'.updated_at) := by
    intro he
    rw [he]
    refine ⟨rfl, ?_, ?_, ?_⟩
    · intro i t t' ht ht'
      rw [ht] at ht'
      cases Option.some_inj.mp ht'
      exact ⟨rfl, rfl, rfl, rfl, rfl, rfl, rfl, rfl⟩
    · intro i k hi _
      exact absurd rfl hi
    · intro i t t' ht ht' hne
      rw [ht] at ht'
      exact absurd (Option.some_inj.mp ht').symm hne
  rcases hsel : selectStale tasks now pick with _ | j
  · exact noop (by simp [corruptTick, hsel])
  · rcases hjt : tasks[j]? with _ | tj
    · exact noop (by simp [corruptTick, hsel, hjt])
    · by_cases hd : tj.description = ""
      · exact noop (by simp [corruptTick, hsel, hjt, hd])
      · have hct : corruptTick tasks now pick op =
            tasks.set j { tj with description := op tj.description, corrupted := true } := by
          simp [corruptTick, hsel, hjt, hd]
        obtain ⟨u, hu, hstale⟩ := selectStale_spec tasks now pick j hsel
        have hutj : u = tj := by
          rw [hjt] at hu
          exact (Option.some_inj.mp hu).symm
        rw [hutj] at hstale
        simp only [isStale, Bool.and_eq_true, beq_iff_eq, decide_eq_true_eq] at hstale
        rw [hct]
        refine ⟨List.length_set .., ?_, ?_, ?_⟩
        · intro i t t' ht ht'
          by_cases hij : j = i
          · subst hij
            rw [List.getElem?_set_self', hjt] at ht'
            have htj : tj = t := by
              rw [ht] at hjt
              exact (Option.some_inj.mp hjt).symm
            cases Option.some_inj.mp ht'
            subst htj
            exact ⟨rfl, rfl, rfl, rfl, rfl, rfl, rfl, rfl⟩
          · rw [List.getElem?_set_ne hij, ht] at ht'
            cases Option.some_inj.mp ht'
            exact ⟨rfl, rfl, rfl, rfl, rfl, rfl, rfl, rfl⟩
        · intro i k hi hk
          by_cases hij : j = i
          · by_cases hkj : j = k
            · omega
            · rw [List.getElem?_set_ne hkj] at hk
              exact absurd rfl hk
          · rw [List.getElem?_set_ne hij] at hi
            exact absurd rfl hi
        · intro i t t' ht ht' hne
          by_cases hij : j = i
          · subst hij
            rw [List.getElem?_set_self', hjt] at ht'
            cases Option.some_inj.mp ht'
            exact ⟨hstale.1, hstale.2⟩
          · rw [List.getElem?_set_ne hij, ht] at ht'
            exact absurd (Option.some_inj.mp ht').symm hne

/-- Witness for C10: the concrete corruption of the stale Doing task keeps
its length, its frame fields and its eligibility. -/
theorem corruption_frame_effect_witness :
    (corruptTick [sampleTask, staleDoingTask] 40000 0 wordReverse).length = 2 ∧
    ({ staleDoingTask with
         description := wordReverse staleDoingTask.description,
         corrupted := true } : Task).updated_at = staleDoingTask.updated_at ∧
    ({ staleDoingTask with
         description := wordReverse staleDoingTask.description,
         corrupted := true } : Task).version = staleDoingTask.version ∧
    ({ staleDoingTask with
         description := wordReverse staleDoingTask.description,
         corrupted := true } : Task).status = "Doing" := by
  have h := corruption_frame_effect [sampleTask, staleDoingTask] 40000 0 wordReverse
  have hne : ({ staleDoingTask with
                  description := wordReverse staleDoingTask.description,
                  corrupted := true } : Task) ≠ staleDoingTask := by
    intro he
    have hc := congrArg Task.corrupted he
    simp [staleDoingTask, mkTask] at hc
  refine ⟨h.1, (h.2.1 1 staleDoingTask _ rfl rfl).2.2.1,
    (h.2.1 1 staleDoingTask _ rfl rfl).2.2.2.1,
    (h.2.2.2 1 staleDoingTask _ rfl rfl hne).1⟩

/-! ### Claim about client-side reconciliation -/

/-- C9: on an incoming snapshot the client's new local list has one entry
per server task, in order; a server task whose id has a pending shadow is
shown as the shadow value, and a server task with no shadow entry is shown
as the server value verbatim. -/
theorem snapshot_reconciliation_shadows (serverTasks : List Task)
    (pending : String → Option Task) :
    (reconcileSnapshot serverTasks pending).length = serverTasks.length ∧
    (∀ (i : Nat) (t : Task), serverTasks[i]? = some t →
      (∀ sh, pending t.id = some sh →
        (reconcileSnapshot serverTasks pending)[i]? = some sh) ∧
      (pending t.id = none →
        (reconcileSnapshot serverTasks pending)[i]? = some t)) := by
  refine ⟨List.length_map .., ?_⟩
  intro i t ht
  constructor
  · intro sh hsh
    simp [reconcileSnapshot, List.getElem?_map, ht, hsh]
  · intro hnone
    simp [reconcileSnapshot, List.getElem?_map, ht, hnone]

/-- Witness for C9: with one shadow held for id `"a"`, the snapshot renders
the task with id `"a"` as the shadow and the task with id `"b"` verbatim. -/
theorem snapshot_reconciliation_shadows_witness :
    (reconcileSnapshot [sampleTask, staleDoingTask] samplePending).length = 2 ∧
    (reconcileSnapshot [sampleTask, staleDoingTask] samplePending)[0]? = some shadowTask ∧
    (reconcileSnapshot [sampleTask, staleDoingTask] samplePending)[1]? = some staleDoingTask := by
  have h := snapshot_reconciliation_shadows [sampleTask, staleDoingTask] samplePending
  exact ⟨h.1, (h.2 0 sampleTask rfl).1 shadowTask rfl, (h.2 1 staleDoingTask rfl).2 rfl⟩

end Kanban
